import Mathlib

/-!
Verification of the NPS comment-ingestion pipeline (`scrape.py`).

The Python source is shallowly embedded: the record parser
(`parse_comments`), the CSV-backed dedup ledger (`read_seen`,
`append_comments`), the notification formatter (`post_comment`) and the
orchestrator (`scrape_once`).  External collaborators (browser fetch,
Google login, webhook POST) are modelled as oracles consumed by call
index; the filesystem artifacts (`auth_state.json`, `comments_log.csv`)
are modelled as explicit state.  The unbounded recursion of
`scrape_once` is modelled with an explicit fuel parameter: a result of
`none` means the recursion consumed the whole fuel budget.
-/

namespace NPS

/-- ASCII whitespace, as Python's `str.strip` and the regex class
matching of `\s` treat it (the source only ever meets ASCII text;
non-ASCII Unicode whitespace is outside this model). -/
def isPySpace (c : Char) : Bool :=
  c = ' ' || c = '\t' || c = '\n' || c = '\x0d' || c = '\x0b' || c = '\x0c'

/-- Strip leading and trailing whitespace from a character list. -/
def pyStripList (cs : List Char) : List Char :=
  ((cs.dropWhile isPySpace).reverse.dropWhile isPySpace).reverse

/-- Python `str.strip()`. -/
def pyStrip (s : String) : String :=
  ⟨pyStripList s.data⟩

/-- Embedding of `store_re = re.compile(r"^\d+\s+.*")` applied with
`re.match`: one or more leading digits, then a whitespace character,
then anything. -/
def isStoreHeader (s : String) : Bool :=
  match s.data with
  | [] => false
  | c :: cs =>
    c.isDigit &&
      (match cs.dropWhile Char.isDigit with
       | [] => false
       | d :: _ => isPySpace d)

/-- Embedding of `score_re = re.compile(r"^[0-9]{1,2}$")` applied with
`re.match`: the whole line is exactly one or two ASCII digits. -/
def isScore (s : String) : Bool :=
  (s.data.length == 1 || s.data.length == 2) && s.data.all Char.isDigit

/-- A comment record, the dict
`{"store": ..., "timestamp": ..., "comment": ..., "score": ...}`
built by `parse_comments`. -/
structure Comment where
  store : String
  timestamp : String
  comment : String
  score : String
  deriving DecidableEq

/-- The inner `while` loop of `parse_comments`: starting at the line
after the timestamp, accumulate stripped lines as body text until a
line whose stripped form matches the score pattern (that line is
consumed as the score) or the input ends (score stays `""`).
Returns (body lines, score, remaining lines). -/
def takeBody : List String → List String × String × List String
  | [] => ([], "", [])
  | l :: ls =>
    if isScore (pyStrip l) then ([], pyStrip l, ls)
    else
      let r := takeBody ls
      (pyStrip l :: r.1, r.2.1, r.2.2)

theorem takeBody_rest_length_le (ls : List String) :
    (takeBody ls).2.2.length ≤ ls.length := by
  induction ls with
  | nil => simp [takeBody]
  | cons l ls ih =>
    by_cases h : isScore (pyStrip l) = true
    · simp [takeBody, h]
    · simp only [takeBody, Bool.not_eq_true] at h ⊢
      simp [h] at ih ⊢
      omega

/-- The timestamp line: `lines[idx].strip() if idx < n else ""`. -/
def tsOf : List String → String
  | [] => ""
  | t :: _ => pyStrip t

/-- One iteration of the outer `while idx < n` scan of
`parse_comments`, recursing on an explicit iteration budget so that
the function evaluates by kernel reduction.  A line that is not a
store header is skipped; a store header consumes the next line
unconditionally as timestamp, then body lines and an optional score
via `takeBody`, and scanning resumes after the last consumed line. -/
def parseGo : ℕ → List String → List Comment
  | 0, _ => []
  | _ + 1, [] => []
  | fuel + 1, l :: ls =>
    if isStoreHeader (pyStrip l) then
      { store := pyStrip l
        timestamp := tsOf ls
        comment := pyStrip (String.intercalate "\n" (takeBody ls.tail).1)
        score := (takeBody ls.tail).2.1 } :: parseGo fuel (takeBody ls.tail).2.2
    else parseGo fuel ls

/-- Embedding of `parse_comments`: the Python loop advances `idx` by at
least one per iteration, so `len(lines)` iterations always suffice
(`parseGo_eq_of_le` below proves the budget irrelevant once
sufficient). -/
def parse_comments (lines : List String) : List Comment :=
  parseGo lines.length lines

theorem parseGo_eq_of_le (n : ℕ) :
    ∀ (m : ℕ) (ls : List String), ls.length ≤ n → ls.length ≤ m →
      parseGo n ls = parseGo m ls := by
  induction n with
  | zero =>
    intro m ls hn _
    have : ls = [] := by
      cases ls with
      | nil => rfl
      | cons a as => simp at hn
    subst this
    cases m <;> rfl
  | succ n ih =>
    intro m ls hn hm
    cases ls with
    | nil => cases m <;> rfl
    | cons l ls =>
      cases m with
      | zero => simp at hm
      | succ m =>
        simp only [parseGo]
        by_cases h : isStoreHeader (pyStrip l) = true
        · simp only [h, if_true]
          have h1 := takeBody_rest_length_le ls.tail
          have h2 : ls.tail.length ≤ ls.length := by cases ls <;> simp
          simp only [List.length_cons] at hn hm
          rw [ih m (takeBody ls.tail).2.2 (by omega) (by omega)]
        · simp only [h, if_false]
          simp only [List.length_cons] at hn hm
          exact ih m ls (by omega) (by omega)

/-- The recursion equation of `parse_comments` itself, free of the
iteration budget. -/
theorem parse_comments_cons (l : String) (ls : List String) :
    parse_comments (l :: ls) =
      if isStoreHeader (pyStrip l) then
        { store := pyStrip l
          timestamp := tsOf ls
          comment := pyStrip (String.intercalate "\n" (takeBody ls.tail).1)
          score := (takeBody ls.tail).2.1 } :: parse_comments (takeBody ls.tail).2.2
      else parse_comments ls := by
  show parseGo (ls.length + 1) (l :: ls) = _
  simp only [parseGo]
  by_cases h : isStoreHeader (pyStrip l) = true
  · simp only [h, if_true, parse_comments]
    have h1 := takeBody_rest_length_le ls.tail
    have h2 : ls.tail.length ≤ ls.length := by cases ls <;> simp
    rw [parseGo_eq_of_le ls.length (takeBody ls.tail).2.2.length
      (takeBody ls.tail).2.2 (by omega) (by omega)]
  · simp [h, parse_comments]

example : parse_comments ["5 Downtown Store", "2024-01-01 10:00", "Great service", "9"] =
    [{ store := "5 Downtown Store", timestamp := "2024-01-01 10:00",
       comment := "Great service", score := "9" }] := by decide

example : isStoreHeader "5 Downtown Store" = true := by decide
example : isStoreHeader "2024-01-01 10:00" = false := by decide
example : isScore "9" = true ∧ isScore "99" = true ∧ isScore "100" = false ∧
    isScore "Great service" = false := by decide

/-- The deduplication identity `(c["store"], c["timestamp"], c["comment"])`
used both by `read_seen` and by the filter in `scrape_once`. -/
def identity (c : Comment) : String × String × String :=
  (c.store, c.timestamp, c.comment)

/-- Embedding of `read_seen`: the CSV rows of `comments_log.csv` are
modelled as the list of committed records (a missing file is the empty
list); each row contributes its `(store, timestamp, comment)` triple to
the seen set, the `score` column being dropped. -/
def read_seen (rows : List Comment) : List (String × String × String) :=
  rows.map identity

/-- Embedding of `append_comments`: append each new record's full field
row, in order, to the end of the log. -/
def append_comments (rows : List Comment) (new : List Comment) : List Comment :=
  rows ++ new

/-- The list comprehension in `scrape_once`:
`[c for c in comments if (c["store"], c["timestamp"], c["comment"]) not in seen]`. -/
def filter_new (comments : List Comment)
    (seen : List (String × String × String)) : List Comment :=
  comments.filter fun c => decide (identity c ∉ seen)

/-- Python `int(str)` digit part with underscore separators:
`digit (["_"] digit)*`, continuing after the first digit which the
caller has already consumed into `acc`. -/
def pyIntDigits : ℕ → List Char → Option ℕ
  | acc, [] => some acc
  | acc, c :: cs =>
    if c.isDigit then pyIntDigits (acc * 10 + (c.toNat - 48)) cs
    else if c = '_' then
      match cs with
      | [] => none
      | d :: cs' =>
        if d.isDigit then pyIntDigits (acc * 10 + (d.toNat - 48)) cs' else none
    else none

/-- Python `int(str)` digit part: nonempty, starts with a digit. -/
def pyDigits : List Char → Option ℕ
  | [] => none
  | c :: cs => if c.isDigit then pyIntDigits (c.toNat - 48) cs else none

/-- Embedding of Python's built-in `int(s)` for a base-10 string:
surrounding whitespace is stripped, an optional sign precedes a
nonempty digit sequence (underscore separators allowed), and anything
else raises `ValueError`, modelled as `none`. -/
def pyInt (s : String) : Option ℤ :=
  match pyStripList s.data with
  | [] => none
  | c :: cs =>
    if c = '+' then (pyDigits cs).map fun n => (n : ℤ)
    else if c = '-' then (pyDigits cs).map fun n => -(n : ℤ)
    else (pyDigits (c :: cs)).map fun n => (n : ℤ)

/-- The coercion `int(c["score"] or 0)` guarded by
`except ValueError: score = 0` in `post_comment`: an empty score string
short-circuits to `0`, an unparsable one falls back to `0`. -/
def coerced_score (s : String) : ℤ :=
  if s = "" then 0 else (pyInt s).getD 0

/-- The classification line of `post_comment`:
`("🔴","Detractor") if score<=4 else ("🟠","Passive") if score<=7 else ("🟢","Promoter")`. -/
def emoji_label (score : ℤ) : String × String :=
  if score ≤ 4 then ("🔴", "Detractor")
  else if score ≤ 7 then ("🟠", "Passive")
  else ("🟢", "Promoter")

/-- The substitution `c["comment"].replace('\n', '<br>')`: the pattern
is the single character `'\n'`, so Python's `str.replace` is exactly
this character-by-character substitution. -/
def replaceNL : List Char → List Char
  | [] => []
  | c :: cs =>
    if c = '\n' then '<' :: 'b' :: 'r' :: '>' :: replaceNL cs
    else c :: replaceNL cs

/-- String form of `replaceNL`. -/
def pyReplaceNL (s : String) : String :=
  ⟨replaceNL s.data⟩

/-- The Google-Chat card payload built by `post_comment`: the fixed
title, the subtitle `f"{emoji} {c['store']} ({label})"`, and the three
widgets rendering timestamp, coerced score and the comment body with
newlines replaced by `<br>`. -/
structure Payload where
  title : String
  subtitle : String
  timestamp : String
  scoreText : String
  text : String
  deriving DecidableEq

/-- Embedding of the pure part of `post_comment`: the payload it posts
to the webhook for a record. -/
def post_comment (c : Comment) : Payload :=
  let score := coerced_score c.score
  let el := emoji_label score
  { title := "New NPS Comment"
    subtitle := el.1 ++ " " ++ c.store ++ " (" ++ el.2 ++ ")"
    timestamp := c.timestamp
    scoreText := toString score
    text := pyReplaceNL c.comment }

example : pyInt "9" = some 9 ∧ pyInt "abc" = none ∧ pyInt " 10 " = some 10 ∧
    pyInt "-3" = some (-3) ∧ pyInt "1_0" = some 10 ∧ pyInt "1_" = none ∧
    pyInt "" = none ∧ pyInt "+7" = some 7 := by decide

example : coerced_score "" = 0 ∧ coerced_score "abc" = 0 ∧ coerced_score "9" = 9 := by
  decide

example : (post_comment ⟨"5 Downtown Store", "2024-01-01 10:00",
    "Great service", "9"⟩).subtitle = "🟢 5 Downtown Store (Promoter)" := by decide

/-- Result of one call to the fetch collaborator `copy_looker_text`:
`authRejected` models the `None` return (redirect to the login page),
`lines ls` models a returned line list (possibly empty). -/
inductive FetchResult where
  | authRejected : FetchResult
  | lines : List String → FetchResult
  deriving DecidableEq

/-- The external collaborators of `scrape_once`, each consumed by call
index: `fetch` is `copy_looker_text`, `login` is the success flag of
`auto_login_and_save_state`, `post` is the success flag of the webhook
request in `post_comment`. -/
structure Oracle where
  fetch : ℕ → FetchResult
  login : ℕ → Bool
  post : ℕ → Bool

/-- Observable actions of one `scrape_once` run: the
`alert_login_needed` call, each webhook dispatch attempt (with the
payload and the collaborator's success flag), and the single
`append_comments` commit. -/
inductive Event where
  | alert : Event
  | dispatch : Payload → Bool → Event
  | commit : List Comment → Event
  deriving DecidableEq

/-- The world state threaded through `scrape_once`: whether
`auth_state.json` exists, the rows of `comments_log.csv`, the call
counters of the three collaborators, and the event log. -/
structure St where
  auth : Bool
  ledger : List Comment
  fetchIdx : ℕ
  loginIdx : ℕ
  postIdx : ℕ
  events : List Event
  deriving DecidableEq

/-- The dispatch loop `for c in new: post_comment(c); time.sleep(1.0)`:
every record is attempted in order, each attempt consuming one `post`
oracle answer; a failed attempt is logged (the `false` flag) and the
loop continues. -/
def dispatchAll (ω : Oracle) : ℕ → List Comment → List Event
  | _, [] => []
  | i, c :: cs => Event.dispatch (post_comment c) (ω.post i) :: dispatchAll ω (i + 1) cs

/-- Embedding of `scrape_once`.  The source recurses on itself without
any bound after deleting `auth_state.json` (`scrape_once()  # single
retry`); the recursion is modelled with an explicit `fuel` budget, and
a result of `none` means the run was still recursing when the budget
ran out — so `∀ fuel, scrape_once ω fuel s = none` says the source
recursion never terminates for that oracle. -/
def scrape_once (ω : Oracle) : ℕ → St → Option St
  | 0, _ => none
  | fuel + 1, s₀ =>
    if !s₀.auth && !(ω.login s₀.loginIdx) then
      some { s₀ with loginIdx := s₀.loginIdx + 1, events := s₀.events ++ [Event.alert] }
    else
      let s := if s₀.auth then s₀
               else { s₀ with auth := true, loginIdx := s₀.loginIdx + 1 }
      match ω.fetch s.fetchIdx with
      | FetchResult.authRejected =>
        scrape_once ω fuel { s with auth := false, fetchIdx := s.fetchIdx + 1 }
      | FetchResult.lines ls =>
        let s := { s with fetchIdx := s.fetchIdx + 1 }
        if ls = [] then some s
        else
          let newRecs := filter_new (parse_comments ls) (read_seen s.ledger)
          if newRecs = [] then some s
          else
            some { s with
              postIdx := s.postIdx + newRecs.length
              events := s.events ++ dispatchAll ω s.postIdx newRecs ++ [Event.commit newRecs]
              ledger := s.ledger ++ newRecs }

/-- The initial world of a fresh run: auth artifact present, ledger
rows as given, no collaborator calls made yet, empty event log. -/
def initSt (rows : List Comment) : St :=
  { auth := true, ledger := rows, fetchIdx := 0, loginIdx := 0, postIdx := 0, events := [] }

example :
    scrape_once ⟨fun _ => FetchResult.lines ["x"], fun _ => true, fun _ => true⟩ 1
      (initSt []) = some { initSt [] with fetchIdx := 1 } := by decide

/-- A fetch collaborator that signals "authentication rejected" on
every call, with an auto-login that always succeeds — the test double
of the auth-retry claim. -/
def reject_oracle : Oracle :=
  ⟨fun _ => FetchResult.authRejected, fun _ => true, fun _ => true⟩

/-- C1: with a fetch collaborator rejecting every call (and auto-login
succeeding), `scrape_once` never terminates: every finite recursion
budget is exhausted, because the source recurses unconditionally after
each rejection instead of stopping after one retry.  This refutes the
claimed retry bound of one and the claimed termination for every fetch
sequence; the source's own comment (`scrape_once()  # single retry`)
documents the intended bound the code does not enforce. -/
theorem scrape_once_always_reject_never_terminates :
    ∀ (fuel : ℕ) (s : St), scrape_once reject_oracle fuel s = none := by
  intro fuel
  induction fuel with
  | zero => intro s; rfl
  | succ n ih =>
    intro s
    cases hs : s.auth <;> simp [scrape_once, reject_oracle, hs] <;> exact ih _

/-- C2: the notification classification coerces the score string to an
integer — empty or unparsable scores become 0 — and then classifies by
the 4/7 thresholds: at most 4 is Detractor/🔴, at most 7 is
Passive/🟠, above 7 is Promoter/🟢; in particular "4" is Detractor,
"5" and "7" are Passive, "8" is Promoter, and "" and "abc" are
Detractor.  The marker/category pair appears verbatim in the payload
subtitle. -/
theorem post_comment_classification :
    (∀ s : String,
      (coerced_score s ≤ 4 → emoji_label (coerced_score s) = ("🔴", "Detractor")) ∧
      (4 < coerced_score s → coerced_score s ≤ 7 →
        emoji_label (coerced_score s) = ("🟠", "Passive")) ∧
      (7 < coerced_score s → emoji_label (coerced_score s) = ("🟢", "Promoter")) ∧
      (s = "" → coerced_score s = 0) ∧
      (pyInt s = none → coerced_score s = 0)) ∧
    (∀ c : Comment, (post_comment c).subtitle =
      (emoji_label (coerced_score c.score)).1 ++ " " ++ c.store ++ " (" ++
        (emoji_label (coerced_score c.score)).2 ++ ")") ∧
    emoji_label (coerced_score "4") = ("🔴", "Detractor") ∧
    emoji_label (coerced_score "5") = ("🟠", "Passive") ∧
    emoji_label (coerced_score "7") = ("🟠", "Passive") ∧
    emoji_label (coerced_score "8") = ("🟢", "Promoter") ∧
    emoji_label (coerced_score "") = ("🔴", "Detractor") ∧
    emoji_label (coerced_score "abc") = ("🔴", "Detractor") := by
  refine ⟨fun s => ⟨?_, ?_, ?_, ?_, ?_⟩, fun c => rfl, ?_, ?_, ?_, ?_, ?_, ?_⟩
  · intro h; simp [emoji_label, h]
  · intro h1 h2; rw [emoji_label, if_neg (by omega), if_pos h2]
  · intro h; rw [emoji_label, if_neg (by omega), if_neg (by omega)]
  · intro h; simp [h, coerced_score]
  · intro h; by_cases he : s = "" <;> simp [coerced_score, he, h]
  all_goals decide

/-- Witness for C2 at score "4". -/
theorem post_comment_classification_witness :
    coerced_score "4" ≤ 4 ∧ emoji_label (coerced_score "4") = ("🔴", "Detractor") :=
  ⟨by decide, (post_comment_classification.1 "4").1 (by decide)⟩

/-- C3: deduplication identity is exactly (store, timestamp, comment):
a record agreeing with a ledger row on those three fields is filtered
out of the new-record list whatever its score, and the identity used
by the membership test never depends on the score field. -/
theorem dedup_identity_ignores_score (r1 r2 : Comment) (rows comments : List Comment)
    (hs : r2.store = r1.store) (ht : r2.timestamp = r1.timestamp)
    (hc : r2.comment = r1.comment)
    (hseen : identity r1 ∈ read_seen rows) :
    r2 ∉ filter_new comments (read_seen rows) ∧
    (∀ (st ts cm a b : String),
      identity ⟨st, ts, cm, a⟩ = identity ⟨st, ts, cm, b⟩) := by
  refine ⟨?_, fun st ts cm a b => rfl⟩
  intro hmem
  have h2 := (List.mem_filter.mp hmem).2
  have hid : identity r2 = identity r1 := by
    simp [identity, hs, ht, hc]
  rw [decide_eq_true_iff, hid] at h2
  exact h2 hseen

/-- Witness for C3: same (store, timestamp, comment), scores "5"
vs "9". -/
theorem dedup_identity_ignores_score_witness :
    (⟨"1 Store", "t", "c", "9"⟩ : Comment) ∉
      filter_new [⟨"1 Store", "t", "c", "9"⟩] (read_seen [⟨"1 Store", "t", "c", "5"⟩]) :=
  (dedup_identity_ignores_score ⟨"1 Store", "t", "c", "5"⟩ ⟨"1 Store", "t", "c", "9"⟩
    [⟨"1 Store", "t", "c", "5"⟩] [⟨"1 Store", "t", "c", "9"⟩]
    rfl rfl rfl (by decide)).1

/-- C6: ledger durability round trip — whatever the prior rows, after
`append_comments rows [r1, r2]` a fresh `read_seen` of the resulting
rows contains the identities of both r1 and r2. -/
theorem ledger_round_trip (r1 r2 : Comment) (rows : List Comment) :
    identity r1 ∈ read_seen (append_comments rows [r1, r2]) ∧
    identity r2 ∈ read_seen (append_comments rows [r1, r2]) := by
  constructor <;> simp [read_seen, append_comments]

/-- The end-to-end scenario input of §8.6 of the spec. -/
def lines4 : List String :=
  ["5 Downtown Store", "2024-01-01 10:00", "Great service", "9"]

/-- The record the scenario input parses to. -/
def rec4 : Comment := ⟨"5 Downtown Store", "2024-01-01 10:00", "Great service", "9"⟩

/-- An oracle whose fetch always yields the scenario lines and whose
collaborators all succeed. -/
def oracle4 : Oracle := ⟨fun _ => FetchResult.lines lines4, fun _ => true, fun _ => true⟩

/-- C4: on the scenario lines with an empty prior ledger, one cycle
produces exactly the one expected record, dispatches exactly one
Promoter/🟢 notification, and commits that record's identity to the
ledger; an identical second cycle against the resulting ledger finds
zero new records and dispatches nothing. -/
theorem end_to_end_scenario :
    parse_comments lines4 = [rec4] ∧
    filter_new (parse_comments lines4) (read_seen []) = [rec4] ∧
    scrape_once oracle4 1 (initSt []) =
      some { auth := true, ledger := [rec4], fetchIdx := 1, loginIdx := 0, postIdx := 1,
             events := [Event.dispatch (post_comment rec4) true, Event.commit [rec4]] } ∧
    emoji_label (coerced_score rec4.score) = ("🟢", "Promoter") ∧
    (post_comment rec4).subtitle = "🟢 5 Downtown Store (Promoter)" ∧
    identity rec4 ∈ read_seen [rec4] ∧
    filter_new (parse_comments lines4) (read_seen [rec4]) = [] ∧
    scrape_once oracle4 1 (initSt [rec4]) = some { initSt [rec4] with fetchIdx := 1 } := by
  decide

/-- C7: a store-header line immediately followed by another
store-header line still yields a record whose store is the first line
and whose timestamp is the second header line, consumed
unconditionally; body and score are absorbed from the lines after it,
and scanning resumes only after them — the second header is never
re-examined as a new record's header. -/
theorem degenerate_header_record (l1 l2 : String) (rest : List String)
    (hh1 : isStoreHeader (pyStrip l1) = true)
    (_hh2 : isStoreHeader (pyStrip l2) = true) :
    parse_comments (l1 :: l2 :: rest) =
      { store := pyStrip l1
        timestamp := pyStrip l2
        comment := pyStrip (String.intercalate "\n" (takeBody rest).1)
        score := (takeBody rest).2.1 } :: parse_comments (takeBody rest).2.2 := by
  rw [parse_comments_cons, if_pos hh1]
  rfl

/-- Witness for C7: two adjacent headers, then one body line and a
score. -/
theorem degenerate_header_record_witness :
    parse_comments ["1 a", "2 b", "x", "9"] =
      { store := pyStrip "1 a"
        timestamp := pyStrip "2 b"
        comment := pyStrip (String.intercalate "\n" (takeBody ["x", "9"]).1)
        score := (takeBody ["x", "9"]).2.1 } :: parse_comments (takeBody ["x", "9"]).2.2 :=
  degenerate_header_record "1 a" "2 b" ["x", "9"] (by decide) (by decide)

/-- C9: each iteration of the parser scan strictly shrinks the
remaining line list — by exactly one line for a non-header line, and
by at least two lines for a header line followed by at least one more
line (header and timestamp both consumed) — which is why the iteration
budget `lines.length` of `parse_comments` always suffices and the scan
is total. -/
theorem parser_scan_advances (l : String) (ls : List String) :
    (isStoreHeader (pyStrip l) = false →
      parse_comments (l :: ls) = parse_comments ls ∧
      ls.length + 1 = (l :: ls).length) ∧
    (isStoreHeader (pyStrip l) = true →
      parse_comments (l :: ls) =
        { store := pyStrip l
          timestamp := tsOf ls
          comment := pyStrip (String.intercalate "\n" (takeBody ls.tail).1)
          score := (takeBody ls.tail).2.1 } :: parse_comments (takeBody ls.tail).2.2 ∧
      (takeBody ls.tail).2.2.length < (l :: ls).length ∧
      (ls ≠ [] → (takeBody ls.tail).2.2.length + 2 ≤ (l :: ls).length)) := by
  constructor
  · intro h
    rw [parse_comments_cons, if_neg (by simp [h])]
    exact ⟨rfl, rfl⟩
  · intro h
    refine ⟨by rw [parse_comments_cons, if_pos h], ?_, ?_⟩
    · have h1 := takeBody_rest_length_le ls.tail
      have h2 : ls.tail.length ≤ ls.length := by cases ls <;> simp
      simp only [List.length_cons]
      omega
    · intro hne
      cases ls with
      | nil => exact absurd rfl hne
      | cons t ts =>
        have h1 := takeBody_rest_length_le ts
        simp only [List.tail_cons] at h1 ⊢
        simp only [List.length_cons]
        omega

/-- Witness for C9: a skipped non-header line, and a header block over
a four-line input shrinking the remainder by at least two. -/
theorem parser_scan_advances_witness :
    (parse_comments ["x"] = parse_comments [] ∧
      List.length ([] : List String) + 1 = (["x"] : List String).length) ∧
    (takeBody (["t", "c", "9"] : List String).tail).2.2.length + 2 ≤
      (["1 a", "t", "c", "9"] : List String).length :=
  ⟨(parser_scan_advances "x" []).1 (by decide),
   (((parser_scan_advances "1 a" ["t", "c", "9"]).2 (by decide)).2.2) (by decide)⟩

/-- A well-formed record block of the round-trip property: a header
line, a timestamp line, one or more body lines, and a score line. -/
structure Block where
  header : String
  ts : String
  body : List String
  score : String
  deriving DecidableEq

/-- The raw lines of one block, in input order. -/
def Block.toLines (b : Block) : List String :=
  b.header :: b.ts :: (b.body ++ [b.score])

/-- The record the parser is expected to recover from one block. -/
def Block.record (b : Block) : Comment :=
  { store := pyStrip b.header
    timestamp := pyStrip b.ts
    comment := pyStrip (String.intercalate "\n" (b.body.map pyStrip))
    score := pyStrip b.score }

/-- Validity of a block: the header matches the store pattern, there
is at least one body line, no body line (trimmed) matches the score
pattern, and the score line (trimmed) does. -/
def Block.wf (b : Block) : Bool :=
  isStoreHeader (pyStrip b.header) && !b.body.isEmpty &&
    b.body.all (fun l => !(isScore (pyStrip l))) && isScore (pyStrip b.score)

/-- Concatenation of the lines of a block list. -/
def blocksLines : List Block → List String
  | [] => []
  | b :: bs => b.toLines ++ blocksLines bs

theorem takeBody_append (body : List String) (score : String) (rest : List String)
    (hb : ∀ l ∈ body, isScore (pyStrip l) = false)
    (hs : isScore (pyStrip score) = true) :
    takeBody (body ++ score :: rest) = (body.map pyStrip, pyStrip score, rest) := by
  induction body with
  | nil => simp [takeBody, hs]
  | cons l b ih =>
    have hl := hb l (by simp)
    simp only [List.cons_append, takeBody, hl, Bool.false_eq_true, if_false,
      List.map_cons, List.append_eq]
    rw [ih (fun x hx => hb x (by simp [hx]))]

/-- C5: round trip on well-formed input — parsing the concatenated
lines of any list of valid blocks returns exactly one record per
block, with store, timestamp and score equal to the corresponding
input lines (trimmed) and the comment equal to the trimmed body lines
rejoined with newlines. -/
theorem parse_comments_round_trip (bs : List Block) (h : ∀ b ∈ bs, b.wf = true) :
    parse_comments (blocksLines bs) = bs.map Block.record ∧
    (parse_comments (blocksLines bs)).length = bs.length := by
  have main : parse_comments (blocksLines bs) = bs.map Block.record := by
    induction bs with
    | nil => rfl
    | cons b bs ih =>
      have hb := h b (by simp)
      simp only [Block.wf, Bool.and_eq_true] at hb
      obtain ⟨⟨⟨hh, _⟩, hbody'⟩, hsc⟩ := hb
      have hbody : ∀ l ∈ b.body, isScore (pyStrip l) = false := fun x hx => by
        simpa using List.all_eq_true.mp hbody' x hx
      show parse_comments
        (b.header :: b.ts :: ((b.body ++ [b.score]) ++ blocksLines bs)) = _
      rw [List.append_assoc, List.singleton_append, parse_comments_cons, if_pos hh,
        List.tail_cons, takeBody_append _ _ _ hbody hsc]
      simp only [List.map_cons]
      rw [ih (fun x hx => h x (by simp [hx]))]
      rfl
  exact ⟨main, by rw [main, List.length_map]⟩

/-- Witness for C5: two concrete valid blocks, one with a multi-line
body. -/
theorem parse_comments_round_trip_witness :
    parse_comments (blocksLines
        [⟨"5 Downtown Store", "2024-01-01 10:00", ["Great service"], "9"⟩,
         ⟨"12 Uptown", " 2024-02-02 ", ["slow", "but kind"], " 7 "⟩]) =
      List.map Block.record
        [⟨"5 Downtown Store", "2024-01-01 10:00", ["Great service"], "9"⟩,
         ⟨"12 Uptown", " 2024-02-02 ", ["slow", "but kind"], " 7 "⟩] ∧
    (parse_comments (blocksLines
        [⟨"5 Downtown Store", "2024-01-01 10:00", ["Great service"], "9"⟩,
         ⟨"12 Uptown", " 2024-02-02 ", ["slow", "but kind"], " 7 "⟩])).length = 2 :=
  parse_comments_round_trip
    [⟨"5 Downtown Store", "2024-01-01 10:00", ["Great service"], "9"⟩,
     ⟨"12 Uptown", " 2024-02-02 ", ["slow", "but kind"], " 7 "⟩]
    (by decide)

/-- The payload carried by a dispatch event, if any. -/
def eventPayload : Event → Option Payload
  | Event.dispatch p _ => some p
  | _ => none

/-- Whether an event is a webhook dispatch attempt. -/
def eventIsDispatch : Event → Bool
  | Event.dispatch _ _ => true
  | _ => false

theorem dispatchAll_map_payload (ω : Oracle) (recs : List Comment) :
    ∀ i, (dispatchAll ω i recs).map eventPayload =
      recs.map fun c => some (post_comment c) := by
  induction recs with
  | nil => intro i; rfl
  | cons c cs ih => intro i; simp [dispatchAll, eventPayload, ih (i + 1)]

theorem dispatchAll_only_dispatch (ω : Oracle) (recs : List Comment) :
    ∀ i, ∀ e ∈ dispatchAll ω i recs, eventIsDispatch e = true := by
  induction recs with
  | nil => intro i e he; simp [dispatchAll] at he
  | cons c cs ih =>
    intro i e he
    rcases List.mem_cons.mp he with h | h
    · subst h; rfl
    · exact ih (i + 1) e h

/-- C8: in a cycle that reaches the dispatch stage, every new record
is dispatched in list order — the dispatch attempts are exactly the
new records in order, each consuming one answer of the arbitrary
(hence arbitrarily failing) `post` oracle, so one failure never
suppresses a later attempt — and the ledger is committed with the full
new-record list exactly once, after all dispatch attempts. -/
theorem dispatch_isolation_commit_order (ω : Oracle) (fuel : ℕ) (s : St)
    (ls : List String)
    (hauth : s.auth = true)
    (hfetch : ω.fetch s.fetchIdx = FetchResult.lines ls)
    (hls : ls ≠ [])
    (hnew : filter_new (parse_comments ls) (read_seen s.ledger) ≠ []) :
    scrape_once ω (fuel + 1) s =
      some { s with
        fetchIdx := s.fetchIdx + 1
        postIdx := s.postIdx + (filter_new (parse_comments ls) (read_seen s.ledger)).length
        events := s.events ++
          dispatchAll ω s.postIdx (filter_new (parse_comments ls) (read_seen s.ledger)) ++
          [Event.commit (filter_new (parse_comments ls) (read_seen s.ledger))]
        ledger := s.ledger ++ filter_new (parse_comments ls) (read_seen s.ledger) } ∧
    (dispatchAll ω s.postIdx
        (filter_new (parse_comments ls) (read_seen s.ledger))).map eventPayload =
      (filter_new (parse_comments ls) (read_seen s.ledger)).map
        (fun c => some (post_comment c)) ∧
    ∀ e ∈ dispatchAll ω s.postIdx (filter_new (parse_comments ls) (read_seen s.ledger)),
      eventIsDispatch e = true := by
  refine ⟨?_, dispatchAll_map_payload ω _ s.postIdx,
    dispatchAll_only_dispatch ω _ s.postIdx⟩
  simp [scrape_once, hauth, hfetch, hls, hnew]

/-- Input for the C8 witness: two record blocks. -/
def lines8 : List String := ["1 A", "t1", "c1", "9", "2 B", "t2", "c2", "3"]

/-- Oracle for the C8 witness: every webhook dispatch fails. -/
def oracle8 : Oracle := ⟨fun _ => FetchResult.lines lines8, fun _ => true, fun _ => false⟩

/-- Witness for C8: with every dispatch failing, both records are
still attempted in order and the full list is committed once. -/
theorem dispatch_isolation_commit_order_witness :
    scrape_once oracle8 1 (initSt []) =
      some { initSt [] with
        fetchIdx := 1
        postIdx := (filter_new (parse_comments lines8) (read_seen [])).length
        events := dispatchAll oracle8 0 (filter_new (parse_comments lines8) (read_seen [])) ++
          [Event.commit (filter_new (parse_comments lines8) (read_seen []))]
        ledger := filter_new (parse_comments lines8) (read_seen []) } ∧
    (dispatchAll oracle8 0
        (filter_new (parse_comments lines8) (read_seen []))).map eventPayload =
      (filter_new (parse_comments lines8) (read_seen [])).map
        (fun c => some (post_comment c)) := by
  have h := dispatch_isolation_commit_order oracle8 0 (initSt []) lines8
    rfl rfl (by decide) (by decide)
  exact ⟨h.1, h.2.1⟩

theorem isDigit_toNat (c : Char) (h : c.isDigit = true) :
    48 ≤ c.toNat ∧ c.toNat ≤ 57 := by
  simp only [Char.isDigit, Bool.and_eq_true, decide_eq_true_eq] at h
  obtain ⟨h1, h2⟩ := h
  rw [ge_iff_le, UInt32.le_def, BitVec.le_def] at h1
  rw [UInt32.le_def, BitVec.le_def] at h2
  exact ⟨h1, h2⟩

theorem digit_ne_char (c : Char) (h : c.isDigit = true) (d : Char)
    (hd : d.isDigit = false) : (c = d) = False := by
  simp only [eq_iff_iff, iff_false]
  rintro rfl
  rw [h] at hd
  exact absurd hd (by decide)

theorem digit_not_pyspace (c : Char) (h : c.isDigit = true) : isPySpace c = false := by
  simp [isPySpace, digit_ne_char c h ' ' (by decide), digit_ne_char c h '\t' (by decide),
    digit_ne_char c h '\n' (by decide), digit_ne_char c h '\x0d' (by decide),
    digit_ne_char c h '\x0b' (by decide), digit_ne_char c h '\x0c' (by decide)]

theorem isScore_pyInt (s : String) (h : isScore s = true) :
    ∃ v : ℕ, pyInt s = some (v : ℤ) ∧ v ≤ 99 := by
  have h' : (s.data.length = 1 ∨ s.data.length = 2) ∧ ∀ c ∈ s.data, c.isDigit = true := by
    simpa only [isScore, Bool.and_eq_true, Bool.or_eq_true, beq_iff_eq,
      List.all_eq_true, decide_eq_true_eq] using h
  obtain ⟨hlen, hall⟩ := h'
  rcases hlen with h1 | h2
  · obtain ⟨c, hc⟩ := List.length_eq_one.mp h1
    have hdig : c.isDigit = true := hall c (by rw [hc]; exact List.mem_singleton_self c)
    have hbound := isDigit_toNat c hdig
    have hstrip : pyStripList s.data = [c] := by
      simp [hc, pyStripList, List.dropWhile, digit_not_pyspace c hdig]
    refine ⟨c.toNat - 48, ?_, by omega⟩
    simp [pyInt, hstrip, digit_ne_char c hdig '+' (by decide),
      digit_ne_char c hdig '-' (by decide), pyDigits, hdig, pyIntDigits]
  · obtain ⟨c, d, hcd⟩ := List.length_eq_two.mp h2
    have hdigc : c.isDigit = true := hall c (by rw [hcd]; simp)
    have hdigd : d.isDigit = true := hall d (by rw [hcd]; simp)
    have hbc := isDigit_toNat c hdigc
    have hbd := isDigit_toNat d hdigd
    have hstrip : pyStripList s.data = [c, d] := by
      simp [hcd, pyStripList, List.dropWhile, digit_not_pyspace c hdigc,
        digit_not_pyspace d hdigd]
    refine ⟨(c.toNat - 48) * 10 + (d.toNat - 48), ?_, by omega⟩
    simp [pyInt, hstrip, digit_ne_char c hdigc '+' (by decide),
      digit_ne_char c hdigc '-' (by decide), pyDigits, hdigc, hdigd, pyIntDigits]

theorem takeBody_score_shape (ls : List String) :
    (takeBody ls).2.1 = "" ∨ isScore (takeBody ls).2.1 = true := by
  induction ls with
  | nil => left; rfl
  | cons l ls ih =>
    by_cases h : isScore (pyStrip l) = true
    · right
      simp [takeBody, h]
    · simpa [takeBody, h] using ih

theorem parse_comments_score_mem :
    ∀ (n : ℕ) (ls : List String), ls.length ≤ n →
      ∀ r ∈ parse_comments ls, r.score = "" ∨ isScore r.score = true := by
  intro n
  induction n with
  | zero =>
    intro ls hlen r hr
    cases ls with
    | nil => simp [parse_comments, parseGo] at hr
    | cons l ls => simp at hlen
  | succ n ih =>
    intro ls hlen r hr
    cases ls with
    | nil => simp [parse_comments, parseGo] at hr
    | cons l ls =>
      rw [parse_comments_cons] at hr
      by_cases h : isStoreHeader (pyStrip l) = true
      · rw [if_pos h] at hr
        rcases List.mem_cons.mp hr with h1 | h1
        · subst h1
          simpa using takeBody_score_shape ls.tail
        · refine ih (takeBody ls.tail).2.2 ?_ r h1
          have g1 := takeBody_rest_length_le ls.tail
          have g2 : ls.tail.length ≤ ls.length := by cases ls <;> simp
          simp only [List.length_cons] at hlen
          omega
      · rw [if_neg (by simp [h])] at hr
        refine ih ls ?_ r hr
        simp only [List.length_cons] at hlen
        omega

/-- C10: every record produced by the parser has a score that is
either the empty string or one-to-two digits; hence the integer
coercion of `post_comment` never hits its `ValueError` fallback on a
nonempty parser-produced score, and the coerced value always lies
between 0 and 99. -/
theorem parser_score_invariant (ls : List String) (r : Comment)
    (hr : r ∈ parse_comments ls) :
    (r.score = "" ∨ isScore r.score = true) ∧
    (r.score ≠ "" → ∃ v : ℕ, pyInt r.score = some (v : ℤ)) ∧
    0 ≤ coerced_score r.score ∧ coerced_score r.score ≤ 99 := by
  have hshape := parse_comments_score_mem ls.length ls le_rfl r hr
  have hval : coerced_score r.score = 0 ∨
      ∃ v : ℕ, pyInt r.score = some (v : ℤ) ∧ v ≤ 99 ∧ coerced_score r.score = v := by
    rcases hshape with h | h
    · left; simp [coerced_score, h]
    · obtain ⟨v, hv, hb⟩ := isScore_pyInt r.score h
      have hne : r.score ≠ "" := by
        intro he
        rw [he] at h
        exact absurd h (by decide)
      exact Or.inr ⟨v, hv, hb, by simp [coerced_score, hne, hv]⟩
  refine ⟨hshape, ?_, ?_, ?_⟩
  · intro hne
    rcases hshape with h | h
    · exact absurd h hne
    · obtain ⟨v, hv, _⟩ := isScore_pyInt r.score h
      exact ⟨v, hv⟩
  · rcases hval with h | ⟨v, _, _, hco⟩
    · simp [h]
    · rw [hco]; exact Int.natCast_nonneg v
  · rcases hval with h | ⟨v, _, hb, hco⟩
    · simp [h]
    · rw [hco]; exact_mod_cast hb

/-- Witness for C10 on a concrete parsed record with score "9". -/
theorem parser_score_invariant_witness :
    0 ≤ coerced_score (Comment.score ⟨"1 a", "t", "c", "9"⟩) ∧
    coerced_score (Comment.score ⟨"1 a", "t", "c", "9"⟩) ≤ 99 :=
  ⟨(parser_score_invariant ["1 a", "t", "c", "9"] ⟨"1 a", "t", "c", "9"⟩
      (by decide)).2.2.1,
   (parser_score_invariant ["1 a", "t", "c", "9"] ⟨"1 a", "t", "c", "9"⟩
      (by decide)).2.2.2⟩

end NPS
